import Mathlib

/-!
Shallow embedding of the DOMQL linter core (src/index.js).

The linter walks a Babel AST, finds every ObjectExpression, tests it with
isDOMQLComponent, and validates the props / style / on sub-objects of a
match, pushing warning diagnostics; a parse failure of a file pushes one
error diagnostic.  The embedding models the AST fragments the linter
inspects (object properties with an optional key node, a computed flag, a
value and a source location) and the two mutable collector arrays
(errors, warnings) as an explicit state threaded through the run.

Modelling notes kept faithful to the JavaScript source:
  - a Babel property key only has a .name field when the key node is an
    Identifier; a StringLiteral key has .value instead, so comparisons of
    prop.key.name are false for it, and the code never reads the
    .computed flag, so a computed identifier key still has a .name;
  - the location chain prop.loc?.start?.line || location?.start?.line || 1
    uses JavaScript truthiness, so a coordinate equal to 0 falls through
    to the next tier (Babel columns are 0-based, so column 0 occurs);
  - the JS Set objects are modelled as lists with membership by contains.
-/

structure Loc where
  line : Nat
  column : Nat
deriving Repr, DecidableEq

inductive KeyNode where
  | ident (name : String)
  | strLit (value : String)
  | otherKey
deriving Repr, DecidableEq

mutual
inductive Node : Type where
  | objectExpr : List ObjProp → Option Loc → Node
  | otherNode : List Node → Node

inductive ObjProp : Type where
  | mk : Option KeyNode → Bool → Node → Option Loc → ObjProp
end

def ObjProp.key : ObjProp → Option KeyNode
  | ObjProp.mk k _ _ _ => k

def ObjProp.computed : ObjProp → Bool
  | ObjProp.mk _ c _ _ => c

def ObjProp.value : ObjProp → Node
  | ObjProp.mk _ _ v _ => v

def ObjProp.loc : ObjProp → Option Loc
  | ObjProp.mk _ _ _ l => l

inductive Severity where
  | error
  | warning
deriving Repr, DecidableEq

structure Diagnostic where
  file : String
  line : Nat
  column : Nat
  message : String
  severity : Severity
  suggestion : Option String := none
deriving Repr, DecidableEq

/-- CSS properties that should be in style, not props (getStyleProperties). -/
def getStyleProperties : List String :=
  ["width", "height", "margin", "padding", "border", "background", "color",
   "fontSize", "fontFamily", "fontWeight", "textAlign", "display", "position",
   "top", "left", "right", "bottom", "zIndex", "opacity", "visibility",
   "overflow", "cursor", "transition", "transform", "boxSizing", "flex",
   "flexDirection", "justifyContent", "alignItems", "gap", "grid",
   "gridTemplateColumns", "gridTemplateRows", "aspectRatio", "backdropFilter",
   "borderRadius", "boxShadow", "textDecoration", "lineHeight", "letterSpacing",
   "whiteSpace", "wordWrap", "textOverflow", "verticalAlign", "float",
   "clear", "minWidth", "maxWidth", "minHeight", "maxHeight", "flexBasis",
   "flexGrow", "flexShrink", "order", "alignSelf", "justifySelf"]

/-- HTML attributes that should be in props, not style (getHTMLAttributes). -/
def getHTMLAttributes : List String :=
  ["id", "class", "className", "data-*", "aria-*", "role", "tabindex",
   "disabled", "readonly", "required", "checked", "selected", "value",
   "placeholder", "title", "alt", "src", "href", "target", "rel",
   "type", "name", "form", "for", "maxlength", "minlength", "pattern",
   "autocomplete", "autofocus", "multiple", "size", "rows", "cols"]

/-- Event handlers that should be in on, not props (getEventHandlers). -/
def getEventHandlers : List String :=
  ["onClick", "onMouseEnter", "onMouseLeave", "onMouseOver", "onMouseOut",
   "onMouseDown", "onMouseUp", "onKeyDown", "onKeyUp", "onKeyPress",
   "onFocus", "onBlur", "onChange", "onInput", "onSubmit", "onLoad",
   "onError", "onResize", "onScroll", "onTouchStart", "onTouchEnd",
   "onTouchMove", "onTouchCancel"]

/-- JavaScript prefix test, propName.startsWith(p). -/
def jsStartsWith (s p : String) : Bool :=
  List.isPrefixOf p.data s.data

/-- JavaScript a || b on an optional number, where 0 is falsy. -/
def jsOrNum (v : Option Nat) (fallback : Nat) : Nat :=
  match v with
  | some n => if n = 0 then fallback else n
  | none => fallback

/-- The chain prop.loc?.start?.line || location?.start?.line || 1. -/
def resolveLine (propLoc location : Option Loc) : Nat :=
  jsOrNum (propLoc.map Loc.line) (jsOrNum (location.map Loc.line) 1)

/-- The chain prop.loc?.start?.column || location?.start?.column || 1. -/
def resolveCol (propLoc location : Option Loc) : Nat :=
  jsOrNum (propLoc.map Loc.column) (jsOrNum (location.map Loc.column) 1)

/-- prop.key && prop.key.name === s: only an Identifier key node carries a
.name field, so a StringLiteral or other key compares false; the computed
flag is never consulted by the source. -/
def keyHasName (k : Option KeyNode) (s : String) : Bool :=
  match k with
  | some (KeyNode.ident n) => n == s
  | _ => false

/-- prop.key && prop.key.type === 'Identifier', yielding prop.key.name. -/
def identKeyName (k : Option KeyNode) : Option String :=
  match k with
  | some (KeyNode.ident n) => some n
  | _ => none

/-- validatePropsObject: warn for style properties and event handlers found
under identifier keys of a props object. -/
def validatePropsObject (propsNode : List ObjProp) (filePath : String)
    (location : Option Loc) (styleProps htmlAttrs eventHandlers : List String) :
    List Diagnostic :=
  propsNode.flatMap (fun prop =>
    match identKeyName (ObjProp.key prop) with
    | some propName =>
        (if styleProps.contains propName then
          [{ file := filePath
             line := resolveLine (ObjProp.loc prop) location
             column := resolveCol (ObjProp.loc prop) location
             message := "Style property '" ++ propName ++
               "' should be in 'style' object, not 'props'"
             severity := Severity.warning
             suggestion := some ("Move '" ++ propName ++ "' to the 'style' object") }]
         else [])
        ++
        (if eventHandlers.contains propName then
          [{ file := filePath
             line := resolveLine (ObjProp.loc prop) location
             column := resolveCol (ObjProp.loc prop) location
             message := "Event handler '" ++ propName ++
               "' should be in 'on' object, not 'props'"
             severity := Severity.warning
             suggestion := some ("Move '" ++ propName ++ "' to the 'on' object") }]
         else [])
    | none => [])

/-- validateStyleObject: warn for HTML attributes (by table or by the
data- or aria- prefix) found under identifier keys of a style object. -/
def validateStyleObject (styleNode : List ObjProp) (filePath : String)
    (location : Option Loc) (htmlAttrs : List String) : List Diagnostic :=
  styleNode.flatMap (fun prop =>
    match identKeyName (ObjProp.key prop) with
    | some propName =>
        if htmlAttrs.contains propName || jsStartsWith propName "data-" ||
            jsStartsWith propName "aria-" then
          [{ file := filePath
             line := resolveLine (ObjProp.loc prop) location
             column := resolveCol (ObjProp.loc prop) location
             message := "HTML attribute '" ++ propName ++
               "' should be in 'props' object, not 'style'"
             severity := Severity.warning
             suggestion := some ("Move '" ++ propName ++ "' to the 'props' object") }]
        else []
    | none => [])

/-- validateOnObject: warn for identifier keys of an on object that do not
look like event handlers. -/
def validateOnObject (onNode : List ObjProp) (filePath : String)
    (location : Option Loc) : List Diagnostic :=
  onNode.flatMap (fun prop =>
    match identKeyName (ObjProp.key prop) with
    | some propName =>
        if !(jsStartsWith propName "on") &&
            !(["mouseenter", "mouseleave", "click", "keydown", "keyup"].contains propName) then
          [{ file := filePath
             line := resolveLine (ObjProp.loc prop) location
             column := resolveCol (ObjProp.loc prop) location
             message := "'" ++ propName ++
               "' doesn't look like an event handler and should probably be in 'props'"
             severity := Severity.warning
             suggestion := some ("Consider moving '" ++ propName ++ "' to the 'props' object") }]
        else []
    | none => [])

/-- isDOMQLComponent: an object literal is a component when some property
key node carries the name extend, props, style or on. -/
def isDOMQLComponent (properties : List ObjProp) : Bool :=
  let hasExtend := properties.any (fun prop => keyHasName (ObjProp.key prop) "extend")
  let hasProps := properties.any (fun prop => keyHasName (ObjProp.key prop) "props")
  let hasStyle := properties.any (fun prop => keyHasName (ObjProp.key prop) "style")
  let hasOn := properties.any (fun prop => keyHasName (ObjProp.key prop) "on")
  hasExtend || hasProps || hasStyle || hasOn

/-- node.properties.find(prop => prop.key && prop.key.name === name) whose
value is an ObjectExpression, yielding that value's property list. -/
def subObjectFields (properties : List ObjProp) (name : String) :
    Option (List ObjProp) :=
  match properties.find? (fun prop => keyHasName (ObjProp.key prop) name) with
  | some prop =>
      match ObjProp.value prop with
      | Node.objectExpr inner _ => some inner
      | _ => none
  | none => none

/-- validateComponentStructure: check the props, style and on sub-objects
in that order, appending their warnings. -/
def validateComponentStructure (properties : List ObjProp) (filePath : String)
    (location : Option Loc) : List Diagnostic :=
  (match subObjectFields properties "props" with
   | some inner => validatePropsObject inner filePath location
       getStyleProperties getHTMLAttributes getEventHandlers
   | none => [])
  ++
  (match subObjectFields properties "style" with
   | some inner => validateStyleObject inner filePath location getHTMLAttributes
   | none => [])
  ++
  (match subObjectFields properties "on" with
   | some inner => validateOnObject inner filePath location
   | none => [])

mutual
/-- traverse with an ObjectExpression visitor: pre-order, the node itself
before its children, children in declaration order. -/
def traverseNode (filePath : String) : Node → List Diagnostic
  | Node.objectExpr properties loc =>
      (if isDOMQLComponent properties then
        validateComponentStructure properties filePath loc
       else []) ++ traverseProperties filePath properties

  | Node.otherNode children => traverseChildren filePath children

def traverseChildren (filePath : String) : List Node → List Diagnostic
  | [] => []
  | n :: ns => traverseNode filePath n ++ traverseChildren filePath ns

def traverseProperties (filePath : String) : List ObjProp → List Diagnostic
  | [] => []
  | ObjProp.mk _ _ v _ :: ps => traverseNode filePath v ++ traverseProperties filePath ps
end

/-- The two collector arrays of the linter instance. -/
structure LintState where
  errors : List Diagnostic
  warnings : List Diagnostic
deriving Repr, DecidableEq

/-- The constructor initialises both collectors empty. -/
def initState : LintState := { errors := [], warnings := [] }

/-- lintFile: parse the file and traverse, pushing warnings; on a parse
failure push one error diagnostic at line 1, column 1. -/
def lintFile (st : LintState) (filePath : String) (parsed : Except String Node) :
    LintState :=
  match parsed with
  | Except.ok ast =>
      { st with warnings := st.warnings ++ traverseNode filePath ast }
  | Except.error msg =>
      { st with errors := st.errors ++
          [{ file := filePath
             line := 1
             column := 1
             message := "Parse error: " ++ msg
             severity := Severity.error }] }

/-- The for-loop of lint: process the resolved file list in order. -/
def lintFiles (st : LintState) (files : List (String × Except String Node)) :
    LintState :=
  match files with
  | [] => st
  | (f, p) :: rest => lintFiles (lintFile st f p) rest

/-- lint: run every file from a fresh state and return the collectors
together with the success flag this.errors.length === 0. -/
def lint (files : List (String × Except String Node)) : LintState × Bool :=
  let st := lintFiles initState files
  (st, st.errors.length == 0)

/-! ### Helper lemmas -/

theorem all_true_of_mem {α : Type} {l : List α} {f : α → Bool}
    (h : l.all f = true) {x : α} (hx : x ∈ l) : f x = true :=
  List.all_eq_true.mp h x hx

theorem not_mem_of_contains_eq_false {l : List String} {n : String}
    (h : l.contains n = false) : n ∉ l := by
  intro hx
  have h2 : l.contains n = true := List.elem_eq_true_of_mem hx
  rw [h2] at h
  simp at h

theorem styleProperties_not_eventHandlers {n : String}
    (h : n ∈ getStyleProperties) : getEventHandlers.contains n = false := by
  simpa using all_true_of_mem
    (f := fun x => !(getEventHandlers.contains x)) (by decide) h

theorem styleProperties_not_htmlAttributes {n : String}
    (h : n ∈ getStyleProperties) : getHTMLAttributes.contains n = false := by
  simpa using all_true_of_mem
    (f := fun x => !(getHTMLAttributes.contains x)) (by decide) h

theorem styleProperties_no_attr_start {n : String}
    (h : n ∈ getStyleProperties) :
    jsStartsWith n "data-" = false ∧ jsStartsWith n "aria-" = false := by
  have h1 := all_true_of_mem (f := fun x => !(jsStartsWith x "data-")) (by decide) h
  have h2 := all_true_of_mem (f := fun x => !(jsStartsWith x "aria-")) (by decide) h
  constructor
  · simpa using h1
  · simpa using h2

theorem htmlAttributes_not_styleProperties {n : String}
    (h : n ∈ getHTMLAttributes) : getStyleProperties.contains n = false := by
  simpa using all_true_of_mem
    (f := fun x => !(getStyleProperties.contains x)) (by decide) h

theorem htmlAttributes_not_eventHandlers {n : String}
    (h : n ∈ getHTMLAttributes) : getEventHandlers.contains n = false := by
  simpa using all_true_of_mem
    (f := fun x => !(getEventHandlers.contains x)) (by decide) h

theorem eventHandlers_no_attr_start {n : String}
    (h : n ∈ getEventHandlers) :
    jsStartsWith n "data-" = false ∧ jsStartsWith n "aria-" = false := by
  have h1 := all_true_of_mem (f := fun x => !(jsStartsWith x "data-")) (by decide) h
  have h2 := all_true_of_mem (f := fun x => !(jsStartsWith x "aria-")) (by decide) h
  constructor
  · simpa using h1
  · simpa using h2

theorem data_prefixed_not_styleProperties {n : String}
    (h : jsStartsWith n "data-" = true) :
    getStyleProperties.contains n = false := by
  by_contra hc
  have hm : n ∈ getStyleProperties :=
    List.mem_of_elem_eq_true (Bool.of_not_eq_false hc)
  exact absurd h (by simp [(styleProperties_no_attr_start hm).1])

theorem aria_prefixed_not_styleProperties {n : String}
    (h : jsStartsWith n "aria-" = true) :
    getStyleProperties.contains n = false := by
  by_contra hc
  have hm : n ∈ getStyleProperties :=
    List.mem_of_elem_eq_true (Bool.of_not_eq_false hc)
  exact absurd h (by simp [(styleProperties_no_attr_start hm).2])

theorem data_prefixed_not_eventHandlers {n : String}
    (h : jsStartsWith n "data-" = true) :
    getEventHandlers.contains n = false := by
  by_contra hc
  have hm : n ∈ getEventHandlers :=
    List.mem_of_elem_eq_true (Bool.of_not_eq_false hc)
  exact absurd h (by simp [(eventHandlers_no_attr_start hm).1])

theorem aria_prefixed_not_eventHandlers {n : String}
    (h : jsStartsWith n "aria-" = true) :
    getEventHandlers.contains n = false := by
  by_contra hc
  have hm : n ∈ getEventHandlers :=
    List.mem_of_elem_eq_true (Bool.of_not_eq_false hc)
  exact absurd h (by simp [(eventHandlers_no_attr_start hm).2])

/-- C1: for every field name in the fixed StyleNames set, a component whose
props sub-object holds a single field with that static name yields exactly
one warning, with the stated message and suggestion; the same field placed
inside the component's style sub-object yields zero warnings. -/
theorem c1_style_names_placement (name : String) (hmem : name ∈ getStyleProperties)
    (v : Node) (ploc iloc oloc cloc : Option Loc) (filePath : String) :
    validateComponentStructure
        [ObjProp.mk (some (KeyNode.ident "props")) false
          (Node.objectExpr [ObjProp.mk (some (KeyNode.ident name)) false v ploc] iloc) oloc]
        filePath cloc
      = [{ file := filePath
           line := resolveLine ploc cloc
           column := resolveCol ploc cloc
           message := "Style property '" ++ name ++
             "' should be in 'style' object, not 'props'"
           severity := Severity.warning
           suggestion := some ("Move '" ++ name ++ "' to the 'style' object") }]
    ∧ validateComponentStructure
        [ObjProp.mk (some (KeyNode.ident "style")) false
          (Node.objectExpr [ObjProp.mk (some (KeyNode.ident name)) false v ploc] iloc) oloc]
        filePath cloc
      = [] := by
  have hne : name ∉ getEventHandlers :=
    not_mem_of_contains_eq_false (styleProperties_not_eventHandlers hmem)
  have hnh : name ∉ getHTMLAttributes :=
    not_mem_of_contains_eq_false (styleProperties_not_htmlAttributes hmem)
  have hpre := styleProperties_no_attr_start hmem
  constructor
  · simp [validateComponentStructure, subObjectFields, validatePropsObject,
      validateStyleObject, validateOnObject, identKeyName, keyHasName,
      ObjProp.key, ObjProp.value, ObjProp.loc, List.find?, hmem, hne]
  · simp [validateComponentStructure, subObjectFields, validatePropsObject,
      validateStyleObject, validateOnObject, identKeyName, keyHasName,
      ObjProp.key, ObjProp.value, ObjProp.loc, List.find?, hnh, hpre.1, hpre.2]

theorem c1_style_names_placement_witness :
    validateComponentStructure
        [ObjProp.mk (some (KeyNode.ident "props")) false
          (Node.objectExpr [ObjProp.mk (some (KeyNode.ident "width")) false
            (Node.otherNode []) (some ⟨3, 4⟩)] none) none]
        "a.js" (some ⟨2, 2⟩)
      = [{ file := "a.js"
           line := 3
           column := 4
           message := "Style property 'width' should be in 'style' object, not 'props'"
           severity := Severity.warning
           suggestion := some "Move 'width' to the 'style' object" }]
    ∧ validateComponentStructure
        [ObjProp.mk (some (KeyNode.ident "style")) false
          (Node.objectExpr [ObjProp.mk (some (KeyNode.ident "width")) false
            (Node.otherNode []) (some ⟨3, 4⟩)] none) none]
        "a.js" (some ⟨2, 2⟩)
      = [] := by
  simpa using c1_style_names_placement "width" (by decide)
    (Node.otherNode []) (some ⟨3, 4⟩) none none (some ⟨2, 2⟩) "a.js"

/-- C2: for every field name in the fixed AttributeNames set, or prefixed
data- or aria-, a component whose style sub-object holds a single field
with that static name yields exactly one warning, with the stated message
and suggestion; the same field placed inside the props sub-object yields
zero warnings. -/
theorem c2_attribute_names_placement (name : String)
    (hattr : getHTMLAttributes.contains name = true ∨
      jsStartsWith name "data-" = true ∨ jsStartsWith name "aria-" = true)
    (v : Node) (ploc iloc oloc cloc : Option Loc) (filePath : String) :
    validateComponentStructure
        [ObjProp.mk (some (KeyNode.ident "style")) false
          (Node.objectExpr [ObjProp.mk (some (KeyNode.ident name)) false v ploc] iloc) oloc]
        filePath cloc
      = [{ file := filePath
           line := resolveLine ploc cloc
           column := resolveCol ploc cloc
           message := "HTML attribute '" ++ name ++
             "' should be in 'props' object, not 'style'"
           severity := Severity.warning
           suggestion := some ("Move '" ++ name ++ "' to the 'props' object") }]
    ∧ validateComponentStructure
        [ObjProp.mk (some (KeyNode.ident "props")) false
          (Node.objectExpr [ObjProp.mk (some (KeyNode.ident name)) false v ploc] iloc) oloc]
        filePath cloc
      = [] := by
  have hns : name ∉ getStyleProperties := by
    rcases hattr with h | h | h
    · exact not_mem_of_contains_eq_false
        (htmlAttributes_not_styleProperties (List.mem_of_elem_eq_true h))
    · exact not_mem_of_contains_eq_false (data_prefixed_not_styleProperties h)
    · exact not_mem_of_contains_eq_false (aria_prefixed_not_styleProperties h)
  have hnev : name ∉ getEventHandlers := by
    rcases hattr with h | h | h
    · exact not_mem_of_contains_eq_false
        (htmlAttributes_not_eventHandlers (List.mem_of_elem_eq_true h))
    · exact not_mem_of_contains_eq_false (data_prefixed_not_eventHandlers h)
    · exact not_mem_of_contains_eq_false (aria_prefixed_not_eventHandlers h)
  constructor
  · rcases hattr with h | h | h
    · have hm : name ∈ getHTMLAttributes := List.mem_of_elem_eq_true h
      simp [validateComponentStructure, subObjectFields, validatePropsObject,
        validateStyleObject, validateOnObject, identKeyName, keyHasName,
        ObjProp.key, ObjProp.value, ObjProp.loc, List.find?, hm]
    · simp [validateComponentStructure, subObjectFields, validatePropsObject,
        validateStyleObject, validateOnObject, identKeyName, keyHasName,
        ObjProp.key, ObjProp.value, ObjProp.loc, List.find?, h]
    · simp [validateComponentStructure, subObjectFields, validatePropsObject,
        validateStyleObject, validateOnObject, identKeyName, keyHasName,
        ObjProp.key, ObjProp.value, ObjProp.loc, List.find?, h]
  · simp [validateComponentStructure, subObjectFields, validatePropsObject,
      validateStyleObject, validateOnObject, identKeyName, keyHasName,
      ObjProp.key, ObjProp.value, ObjProp.loc, List.find?, hns, hnev]

theorem c2_attribute_names_placement_witness :
    validateComponentStructure
        [ObjProp.mk (some (KeyNode.ident "style")) false
          (Node.objectExpr [ObjProp.mk (some (KeyNode.ident "id")) false
            (Node.otherNode []) (some ⟨5, 6⟩)] none) none]
        "b.js" (some ⟨4, 2⟩)
      = [{ file := "b.js"
           line := 5
           column := 6
           message := "HTML attribute 'id' should be in 'props' object, not 'style'"
           severity := Severity.warning
           suggestion := some "Move 'id' to the 'props' object" }]
    ∧ validateComponentStructure
        [ObjProp.mk (some (KeyNode.ident "props")) false
          (Node.objectExpr [ObjProp.mk (some (KeyNode.ident "id")) false
            (Node.otherNode []) (some ⟨5, 6⟩)] none) none]
        "b.js" (some ⟨4, 2⟩)
      = [] := by
  simpa using c2_attribute_names_placement "id" (Or.inl (by decide))
    (Node.otherNode []) (some ⟨5, 6⟩) none none (some ⟨4, 2⟩) "b.js"

/-- C3: a static-named field of a component's on sub-object produces
exactly one warning, with the stated message and suggestion, iff its name
does not start with on and is not one of the five fixed exceptions. -/
theorem c3_on_object_heuristic (name : String) (v : Node)
    (ploc iloc oloc cloc : Option Loc) (filePath : String) :
    validateComponentStructure
        [ObjProp.mk (some (KeyNode.ident "on")) false
          (Node.objectExpr [ObjProp.mk (some (KeyNode.ident name)) false v ploc] iloc) oloc]
        filePath cloc
      = if !(jsStartsWith name "on") &&
            !(["mouseenter", "mouseleave", "click", "keydown", "keyup"].contains name) then
          [{ file := filePath
             line := resolveLine ploc cloc
             column := resolveCol ploc cloc
             message := "'" ++ name ++
               "' doesn't look like an event handler and should probably be in 'props'"
             severity := Severity.warning
             suggestion := some ("Consider moving '" ++ name ++ "' to the 'props' object") }]
        else [] := by
  simp [validateComponentStructure, subObjectFields, validatePropsObject,
    validateStyleObject, validateOnObject, identKeyName, keyHasName,
    ObjProp.key, ObjProp.value, ObjProp.loc, List.find?]

theorem keyHasName_eq_true {k : Option KeyNode} {s : String} :
    keyHasName k s = true ↔ k = some (KeyNode.ident s) := by
  cases k with
  | none => simp [keyHasName]
  | some kn => cases kn <;> simp [keyHasName]

/-- C4 counterexample: the claim admits string-literal keys and excludes
computed keys, but the detector compares prop.key.name, which a
StringLiteral key node lacks and a computed Identifier key still carries:
a sole string-keyed field named props is not detected as a component,
while a sole computed identifier key named props is. -/
theorem c4_detector_counterexample :
    isDOMQLComponent
        [ObjProp.mk (some (KeyNode.strLit "props")) false (Node.otherNode []) none]
      = false
    ∧ isDOMQLComponent
        [ObjProp.mk (some (KeyNode.ident "props")) true (Node.otherNode []) none]
      = true := by
  constructor <;> rfl

/-- C4 amended: the detector returns true iff some property of the literal
has an Identifier key node named extend, props, style or on; string-literal
keys, other key kinds and keyless spread elements contribute nothing, and
the computed flag is not consulted, so a computed identifier key counts. -/
theorem c4_detector_amended (properties : List ObjProp) :
    isDOMQLComponent properties = true ↔
      ∃ p ∈ properties, ∃ n : String,
        ObjProp.key p = some (KeyNode.ident n) ∧
          (n = "extend" ∨ n = "props" ∨ n = "style" ∨ n = "on") := by
  simp only [isDOMQLComponent, Bool.or_eq_true, List.any_eq_true, keyHasName_eq_true]
  constructor
  · rintro (((⟨p, hp, hk⟩ | ⟨p, hp, hk⟩) | ⟨p, hp, hk⟩) | ⟨p, hp, hk⟩)
    · exact ⟨p, hp, "extend", hk, Or.inl rfl⟩
    · exact ⟨p, hp, "props", hk, Or.inr (Or.inl rfl)⟩
    · exact ⟨p, hp, "style", hk, Or.inr (Or.inr (Or.inl rfl))⟩
    · exact ⟨p, hp, "on", hk, Or.inr (Or.inr (Or.inr rfl))⟩
  · rintro ⟨p, hp, n, hk, (rfl | rfl | rfl | rfl)⟩
    · exact Or.inl (Or.inl (Or.inl ⟨p, hp, hk⟩))
    · exact Or.inl (Or.inl (Or.inr ⟨p, hp, hk⟩))
    · exact Or.inl (Or.inr ⟨p, hp, hk⟩)
    · exact Or.inr ⟨p, hp, hk⟩

theorem lintFile_state (st : LintState) (f : String) (p : Except String Node) :
    lintFile st f p
      = { errors := st.errors ++ (lintFile initState f p).errors,
          warnings := st.warnings ++ (lintFile initState f p).warnings } := by
  cases p <;> simp [lintFile, initState]

theorem lintFiles_state (files : List (String × Except String Node)) (st : LintState) :
    lintFiles st files
      = { errors := st.errors ++ (lintFiles initState files).errors,
          warnings := st.warnings ++ (lintFiles initState files).warnings } := by
  induction files generalizing st with
  | nil => simp [lintFiles, initState]
  | cons fp rest ih =>
      obtain ⟨f, p⟩ := fp
      have h1 : lintFiles st ((f, p) :: rest) = lintFiles (lintFile st f p) rest := rfl
      have h2 : lintFiles initState ((f, p) :: rest)
          = lintFiles (lintFile initState f p) rest := rfl
      rw [h1, h2, ih (lintFile st f p), ih (lintFile initState f p),
        lintFile_state st f p]
      simp [List.append_assoc]

/-- C5: a file whose parse fails contributes exactly one error diagnostic
at line 1, column 1 with message Parse error plus the underlying message,
and the run continues: the remaining files are processed from the extended
state, and the warnings produced are the same as if the failing file were
absent. -/
theorem c5_parse_failure_isolated (st : LintState) (filePath msg : String)
    (rest : List (String × Except String Node)) :
    lintFiles st ((filePath, Except.error msg) :: rest)
      = lintFiles { st with errors := st.errors ++
          [{ file := filePath
             line := 1
             column := 1
             message := "Parse error: " ++ msg
             severity := Severity.error }] } rest
    ∧ (lintFiles st ((filePath, Except.error msg) :: rest)).warnings
        = (lintFiles st rest).warnings := by
  constructor
  · rfl
  · have h1 : lintFiles st ((filePath, Except.error msg) :: rest)
        = lintFiles (lintFile st filePath (Except.error msg)) rest := rfl
    rw [h1, lintFiles_state rest (lintFile st filePath (Except.error msg)),
      lintFiles_state rest st]
    simp [lintFile]

/-- C8: the two collectors are append-only and ordered by discovery.
First conjunct: processing any file list from any prior state only appends
to both sequences, the appended part being the fresh-state output, so
diagnostics accumulate in file order and none is mutated or removed.
Second conjunct: within a detected component the warnings appear as the
props sub-object's, then the style sub-object's, then the on sub-object's,
even when the component declares those sub-objects in the opposite order
on, style, props — the emission order is the fixed bucket order, not the
declaration order.  Third to fifth conjuncts: within one sub-object the
output is a concatenation in property declaration order (splitting the
property list anywhere splits the output at the same point, for each
validator).  Sixth to eighth conjuncts: the traversal is pre-order — an
object node's own component warnings precede those of the objects nested
inside its property values, and children contribute in declaration
order. -/
theorem c8_append_only_discovery_order :
    (∀ (st : LintState) (files : List (String × Except String Node)),
      lintFiles st files
        = { errors := st.errors ++ (lintFiles initState files).errors,
            warnings := st.warnings ++ (lintFiles initState files).warnings })
  ∧ (∀ (pFields sFields oFields : List ObjProp) (f : String)
        (cloc l1 l2 l3 il1 il2 il3 : Option Loc),
      validateComponentStructure
          [ObjProp.mk (some (KeyNode.ident "on")) false (Node.objectExpr oFields il3) l3,
           ObjProp.mk (some (KeyNode.ident "style")) false (Node.objectExpr sFields il2) l2,
           ObjProp.mk (some (KeyNode.ident "props")) false (Node.objectExpr pFields il1) l1]
          f cloc
        = validatePropsObject pFields f cloc
            getStyleProperties getHTMLAttributes getEventHandlers
          ++ validateStyleObject sFields f cloc getHTMLAttributes
          ++ validateOnObject oFields f cloc)
  ∧ (∀ (ps qs : List ObjProp) (f : String) (cloc : Option Loc)
        (sp ha eh : List String),
      validatePropsObject (ps ++ qs) f cloc sp ha eh
        = validatePropsObject ps f cloc sp ha eh
          ++ validatePropsObject qs f cloc sp ha eh)
  ∧ (∀ (ps qs : List ObjProp) (f : String) (cloc : Option Loc) (ha : List String),
      validateStyleObject (ps ++ qs) f cloc ha
        = validateStyleObject ps f cloc ha ++ validateStyleObject qs f cloc ha)
  ∧ (∀ (ps qs : List ObjProp) (f : String) (cloc : Option Loc),
      validateOnObject (ps ++ qs) f cloc
        = validateOnObject ps f cloc ++ validateOnObject qs f cloc)
  ∧ (∀ (f : String) (properties : List ObjProp) (loc : Option Loc),
      traverseNode f (Node.objectExpr properties loc)
        = (if isDOMQLComponent properties then
            validateComponentStructure properties f loc
           else []) ++ traverseProperties f properties)
  ∧ (∀ (f : String) (p : ObjProp) (ps : List ObjProp),
      traverseProperties f (p :: ps)
        = traverseNode f (ObjProp.value p) ++ traverseProperties f ps)
  ∧ (∀ (f : String) (n : Node) (ns : List Node),
      traverseChildren f (n :: ns)
        = traverseNode f n ++ traverseChildren f ns) := by
  refine ⟨?_, ?_, ?_, ?_, ?_, ?_, ?_, ?_⟩
  · intro st files
    exact lintFiles_state files st
  · intro pFields sFields oFields f cloc l1 l2 l3 il1 il2 il3
    rfl
  · intro ps qs f cloc sp ha eh
    simp [validatePropsObject]
  · intro ps qs f cloc ha
    simp [validateStyleObject]
  · intro ps qs f cloc
    simp [validateOnObject]
  · intro f properties loc
    simp [traverseNode]
  · intro f p ps
    cases p
    simp [traverseProperties, ObjProp.value]
  · intro f n ns
    simp [traverseChildren]

/-- C9: a second run over the unchanged file list appends exactly the same
diagnostic sequence, in the same order, that the first run produced. -/
theorem c9_second_run_identical (files : List (String × Except String Node)) :
    (lintFiles (lintFiles initState files) files).errors
        = (lintFiles initState files).errors ++ (lintFiles initState files).errors
    ∧ (lintFiles (lintFiles initState files) files).warnings
        = (lintFiles initState files).warnings ++ (lintFiles initState files).warnings := by
  rw [lintFiles_state files (lintFiles initState files)]
  constructor <;> rfl

theorem validatePropsObject_severity {props : List ObjProp} {f : String}
    {loc : Option Loc} {sp ha eh : List String} :
    ∀ d ∈ validatePropsObject props f loc sp ha eh, d.severity = Severity.warning := by
  intro d hd
  simp only [validatePropsObject, List.mem_flatMap] at hd
  obtain ⟨p, hp, hd⟩ := hd
  cases hk : identKeyName (ObjProp.key p) with
  | none => rw [hk] at hd; simp at hd
  | some nm =>
      rw [hk] at hd
      rcases List.mem_append.mp hd with hd | hd <;> (split at hd <;> simp_all)

theorem validateStyleObject_severity {props : List ObjProp} {f : String}
    {loc : Option Loc} {ha : List String} :
    ∀ d ∈ validateStyleObject props f loc ha, d.severity = Severity.warning := by
  intro d hd
  simp only [validateStyleObject, List.mem_flatMap] at hd
  obtain ⟨p, hp, hd⟩ := hd
  cases hk : identKeyName (ObjProp.key p) with
  | none => rw [hk] at hd; simp at hd
  | some nm => rw [hk] at hd; split at hd <;> simp_all

theorem validateOnObject_severity {props : List ObjProp} {f : String}
    {loc : Option Loc} :
    ∀ d ∈ validateOnObject props f loc, d.severity = Severity.warning := by
  intro d hd
  simp only [validateOnObject, List.mem_flatMap] at hd
  obtain ⟨p, hp, hd⟩ := hd
  cases hk : identKeyName (ObjProp.key p) with
  | none => rw [hk] at hd; simp at hd
  | some nm => rw [hk] at hd; split at hd <;> simp_all

theorem validateComponentStructure_severity {props : List ObjProp} {f : String}
    {loc : Option Loc} :
    ∀ d ∈ validateComponentStructure props f loc, d.severity = Severity.warning := by
  intro d hd
  simp only [validateComponentStructure] at hd
  rcases List.mem_append.mp hd with hd | hd
  · rcases List.mem_append.mp hd with hd | hd
    · split at hd
      · exact validatePropsObject_severity d hd
      · simp at hd
    · split at hd
      · exact validateStyleObject_severity d hd
      · simp at hd
  · split at hd
    · exact validateOnObject_severity d hd
    · simp at hd

mutual
theorem traverseNode_severity (f : String) :
    ∀ (n : Node), ∀ d ∈ traverseNode f n, d.severity = Severity.warning
  | Node.objectExpr props loc => by
      intro d hd
      simp only [traverseNode] at hd
      rcases List.mem_append.mp hd with hd | hd
      · split at hd
        · exact validateComponentStructure_severity d hd
        · simp at hd
      · exact traverseProperties_severity f props d hd
  | Node.otherNode children => by
      intro d hd
      simp only [traverseNode] at hd
      exact traverseChildren_severity f children d hd

theorem traverseChildren_severity (f : String) :
    ∀ (ns : List Node), ∀ d ∈ traverseChildren f ns, d.severity = Severity.warning
  | [] => by intro d hd; simp [traverseChildren] at hd
  | n :: ns => by
      intro d hd
      simp only [traverseChildren] at hd
      rcases List.mem_append.mp hd with hd | hd
      · exact traverseNode_severity f n d hd
      · exact traverseChildren_severity f ns d hd

theorem traverseProperties_severity (f : String) :
    ∀ (ps : List ObjProp), ∀ d ∈ traverseProperties f ps, d.severity = Severity.warning
  | [] => by intro d hd; simp [traverseProperties] at hd
  | ObjProp.mk k c v l :: ps => by
      intro d hd
      simp only [traverseProperties] at hd
      rcases List.mem_append.mp hd with hd | hd
      · exact traverseNode_severity f v d hd
      · exact traverseProperties_severity f ps d hd
end

theorem lintFiles_errors_severity (files : List (String × Except String Node)) :
    ∀ d ∈ (lintFiles initState files).errors, d.severity = Severity.error := by
  induction files with
  | nil => intro d hd; simp [lintFiles, initState] at hd
  | cons fp rest ih =>
      obtain ⟨f, p⟩ := fp
      intro d hd
      have h1 : lintFiles initState ((f, p) :: rest)
          = lintFiles (lintFile initState f p) rest := rfl
      rw [h1, lintFiles_state rest (lintFile initState f p)] at hd
      rcases List.mem_append.mp hd with hd | hd
      · cases p with
        | ok ast => simp [lintFile, initState] at hd
        | error m =>
            simp [lintFile, initState] at hd
            subst hd
            rfl
      · exact ih d hd

theorem lintFiles_warnings_severity (files : List (String × Except String Node)) :
    ∀ d ∈ (lintFiles initState files).warnings, d.severity = Severity.warning := by
  induction files with
  | nil => intro d hd; simp [lintFiles, initState] at hd
  | cons fp rest ih =>
      obtain ⟨f, p⟩ := fp
      intro d hd
      have h1 : lintFiles initState ((f, p) :: rest)
          = lintFiles (lintFile initState f p) rest := rfl
      rw [h1, lintFiles_state rest (lintFile initState f p)] at hd
      rcases List.mem_append.mp hd with hd | hd
      · cases p with
        | ok ast =>
            simp [lintFile, initState] at hd
            exact traverseNode_severity f ast d hd
        | error m => simp [lintFile, initState] at hd
      · exact ih d hd

/-- C6: the success flag returned by lint is true iff zero error-severity
diagnostics were produced across both collectors, regardless of how many
warning-severity diagnostics were produced. -/
theorem c6_success_iff_no_error_diagnostics (files : List (String × Except String Node)) :
    (lint files).2 = true ↔
      ((lint files).1.errors ++ (lint files).1.warnings).countP
        (fun d => d.severity == Severity.error) = 0 := by
  have he := lintFiles_errors_severity files
  have hw := lintFiles_warnings_severity files
  have h1 : (lint files).2 = ((lintFiles initState files).errors.length == 0) := rfl
  have h2 : (lint files).1 = lintFiles initState files := rfl
  rw [h1, h2, List.countP_append]
  have hce : (lintFiles initState files).errors.countP
      (fun d => d.severity == Severity.error)
      = (lintFiles initState files).errors.length := by
    apply List.countP_eq_length.mpr
    intro d hd
    simp [he d hd]
  have hcw : (lintFiles initState files).warnings.countP
      (fun d => d.severity == Severity.error) = 0 := by
    apply List.countP_eq_zero.mpr
    intro d hd
    simp [hw d hd]
  rw [hce, hcw]
  simp

/-- C7 counterexample: the claim says the property node's own source
position is used whenever it is available, but the resolution uses the
JavaScript operator and a falsy coordinate falls through: for a style
property whose own location is line 2, column 0 (a property at the start
of a line, columns being 0-based), the emitted diagnostic takes line 2
from the property but column 7 from the enclosing component location,
not the available column 0. -/
theorem c7_location_counterexample :
    validateStyleObject
        [ObjProp.mk (some (KeyNode.ident "id")) false (Node.otherNode []) (some ⟨2, 0⟩)]
        "a.js" (some ⟨3, 7⟩) getHTMLAttributes
      = [{ file := "a.js"
           line := 2
           column := 7
           message := "HTML attribute 'id' should be in 'props' object, not 'style'"
           severity := Severity.warning
           suggestion := some "Move 'id' to the 'props' object" }] := by
  rfl

/-- C7 amended: every diagnostic of the three sub-object validators takes
its line and column from some property of the sub-object through the
fallback chains resolveLine and resolveCol, where line and column are
resolved independently and, at each tier, a coordinate equal to 0 is
treated like an absent one (JavaScript falsiness): property coordinate if
present and nonzero, else component coordinate if present and nonzero,
else 1. -/
theorem c7_location_resolution_amended :
    (∀ (props : List ObjProp) (f : String) (cloc : Option Loc),
      ∀ d ∈ validateStyleObject props f cloc getHTMLAttributes,
        ∃ p ∈ props, d.line = resolveLine (ObjProp.loc p) cloc
          ∧ d.column = resolveCol (ObjProp.loc p) cloc)
  ∧ (∀ (props : List ObjProp) (f : String) (cloc : Option Loc)
        (sp ha eh : List String),
      ∀ d ∈ validatePropsObject props f cloc sp ha eh,
        ∃ p ∈ props, d.line = resolveLine (ObjProp.loc p) cloc
          ∧ d.column = resolveCol (ObjProp.loc p) cloc)
  ∧ (∀ (props : List ObjProp) (f : String) (cloc : Option Loc),
      ∀ d ∈ validateOnObject props f cloc,
        ∃ p ∈ props, d.line = resolveLine (ObjProp.loc p) cloc
          ∧ d.column = resolveCol (ObjProp.loc p) cloc)
  ∧ (∀ (l c : Nat) (cloc : Option Loc),
      resolveLine (some ⟨l, c⟩) cloc = if l = 0 then resolveLine none cloc else l)
  ∧ (∀ (l c : Nat) (cloc : Option Loc),
      resolveCol (some ⟨l, c⟩) cloc = if c = 0 then resolveCol none cloc else c)
  ∧ (∀ l c : Nat, resolveLine none (some ⟨l, c⟩) = if l = 0 then 1 else l)
  ∧ (∀ l c : Nat, resolveCol none (some ⟨l, c⟩) = if c = 0 then 1 else c)
  ∧ resolveLine none none = 1 ∧ resolveCol none none = 1 := by
  refine ⟨?_, ?_, ?_, fun l c cloc => rfl, fun l c cloc => rfl,
    fun l c => rfl, fun l c => rfl, rfl, rfl⟩
  · intro props f cloc d hd
    simp only [validateStyleObject, List.mem_flatMap] at hd
    obtain ⟨p, hp, hd⟩ := hd
    refine ⟨p, hp, ?_⟩
    cases hk : identKeyName (ObjProp.key p) with
    | none => rw [hk] at hd; simp at hd
    | some nm =>
        simp only [hk] at hd
        split at hd
        · cases hd with
          | head => exact ⟨rfl, rfl⟩
          | tail _ h => cases h
        · cases hd
  · intro props f cloc sp ha eh d hd
    simp only [validatePropsObject, List.mem_flatMap] at hd
    obtain ⟨p, hp, hd⟩ := hd
    refine ⟨p, hp, ?_⟩
    cases hk : identKeyName (ObjProp.key p) with
    | none => rw [hk] at hd; simp at hd
    | some nm =>
        rw [hk] at hd
        rcases List.mem_append.mp hd with hd | hd <;>
          (split at hd
           · simp only [List.mem_singleton] at hd
             subst hd
             exact ⟨rfl, rfl⟩
           · simp at hd)
  · intro props f cloc d hd
    simp only [validateOnObject, List.mem_flatMap] at hd
    obtain ⟨p, hp, hd⟩ := hd
    refine ⟨p, hp, ?_⟩
    cases hk : identKeyName (ObjProp.key p) with
    | none => rw [hk] at hd; simp at hd
    | some nm =>
        simp only [hk] at hd
        split at hd
        · cases hd with
          | head => exact ⟨rfl, rfl⟩
          | tail _ h => cases h
        · cases hd

theorem c7_location_resolution_amended_witness :
    ∃ p ∈ [ObjProp.mk (some (KeyNode.ident "id")) false (Node.otherNode []) (some ⟨2, 0⟩)],
      (2 : Nat) = resolveLine (ObjProp.loc p) (some ⟨3, 7⟩)
        ∧ (7 : Nat) = resolveCol (ObjProp.loc p) (some ⟨3, 7⟩) := by
  have h := c7_location_resolution_amended.1
    [ObjProp.mk (some (KeyNode.ident "id")) false (Node.otherNode []) (some ⟨2, 0⟩)]
    "a.js" (some ⟨3, 7⟩)
    { file := "a.js"
      line := 2
      column := 7
      message := "HTML attribute 'id' should be in 'props' object, not 'style'"
      severity := Severity.warning
      suggestion := some "Move 'id' to the 'props' object" }
    (by decide)
  simpa using h

theorem flatMap_filter_of_none {α β : Type} (l : List α) (q : α → Bool)
    (g : α → List β) (h : ∀ a, q a = false → g a = []) :
    (l.filter q).flatMap g = l.flatMap g := by
  induction l with
  | nil => rfl
  | cons a l ih =>
      cases hq : q a with
      | false => simp [List.filter_cons, hq, ih, h a hq]
      | true => simp [List.filter_cons, hq, ih]

/-- C10: in all three sub-object checks, properties whose key is not of
identifier type (string-literal keys, other key expressions and keyless
spread elements) are never examined: restricting each sub-object to its
identifier-keyed properties leaves every validator's output unchanged, so
only identifier-keyed properties can trigger a warning. -/
theorem c10_non_identifier_keys_ignored (fields : List ObjProp) (f : String)
    (cloc : Option Loc) (sp ha eh : List String) :
    validatePropsObject
        (fields.filter (fun p => (identKeyName (ObjProp.key p)).isSome)) f cloc sp ha eh
      = validatePropsObject fields f cloc sp ha eh
    ∧ validateStyleObject
        (fields.filter (fun p => (identKeyName (ObjProp.key p)).isSome)) f cloc ha
      = validateStyleObject fields f cloc ha
    ∧ validateOnObject
        (fields.filter (fun p => (identKeyName (ObjProp.key p)).isSome)) f cloc
      = validateOnObject fields f cloc := by
  refine ⟨?_, ?_, ?_⟩ <;>
  · apply flatMap_filter_of_none
    intro p hp
    cases hk : identKeyName (ObjProp.key p) with
    | none => simp [hk]
    | some nm => simp [hk] at hp
